import Mathlib

/-!
Verification development for the `users_table` data-access module
(`src/app/aws/dynamodb/users_table.py`): CRUD operations over a single
key-value table of user records, including the reserved sentinel record
keyed `"railway"`.

The module's collaborators (`aws.dynamodb.users.User`,
`aws.dynamodb.users.DelayInfoMessages`, `aws.dynamodb.utils.replace_data`,
`aws.exceptions.DynamoDBError`, and the DynamoDB table client) are not part
of the source file; they are modelled here from the specification, as noted
in the doc comment of each such definition.
-/

set_option maxHeartbeats 1000000

namespace UsersTable

/-- Attribute values as stored in the key-value table and exchanged with it:
strings, native machine integers (`int` in the host language), the store's
required numeric representation (`Decimal`), lists (encoded by
`vnil`/`vcons`) and nested mappings (encoded by `mnil`/`mcons`, each cell
carrying one key-value binding). -/
inductive Val where
  | str : String → Val
  | int : Int → Val
  | dec : Int → Val
  | vnil : Val
  | vcons : Val → Val → Val
  | mnil : Val
  | mcons : String → Val → Val → Val
deriving Repr, DecidableEq

/-- Build a `Val` list value from a Lean list. -/
def Val.ofList : List Val → Val
  | [] => Val.vnil
  | v :: vs => Val.vcons v (Val.ofList vs)

/-- Build a `Val` mapping value from a Lean association list. -/
def Val.ofMap : List (String × Val) → Val
  | [] => Val.mnil
  | (k, v) :: kvs => Val.mcons k v (Val.ofMap kvs)

/-- An item of the table: an attribute map from attribute names to values. -/
abbrev Item := List (String × Val)

/-- The table contents: a collection of items. -/
abbrev Table := List Item

/-- `item.get(k)`: attribute lookup returning `none` when absent. -/
def Item.getAttr (it : Item) (k : String) : Option Val :=
  (it.find? (fun p => decide (p.1 = k))).map (fun p => p.2)

/-- Set one attribute of an item, replacing any previous binding. -/
def Item.setAttr (it : Item) (k : String) (v : Val) : Item :=
  (k, v) :: it.filter (fun p => decide (p.1 ≠ k))

/-- The primary-key attribute of an item (attribute name `user_id`). -/
def itemKey (it : Item) : Option Val :=
  it.getAttr "user_id"

/-- Modelled from the spec: the store client's `put_item`. The table keeps at
most one item per key, so putting an item unconditionally replaces any item
with the same `user_id` value (no existence check). -/
def db_put_item (tbl : Table) (item : Item) : Table :=
  item :: tbl.filter (fun it => decide (itemKey it ≠ itemKey item))

/-- Modelled from the spec: the store client's `get_item`, a point lookup by
the `user_id` key, returning `none` (absent) when no item matches. -/
def db_get_item (tbl : Table) (key : String) : Option Item :=
  tbl.find? (fun it => decide (itemKey it = some (Val.str key)))

/-- Modelled from the spec: the store client's `delete_item`, removing any
item with the given key; no error when the key does not exist. -/
def db_delete_item (tbl : Table) (key : String) : Table :=
  tbl.filter (fun it => decide (itemKey it ≠ some (Val.str key)))

/-- Modelled from the spec: the store client's `update_item` with a `SET`
update expression. It sets the listed attributes on the item with the given
key, creating a sparse item holding just the key when no item exists, and
returns the new values of the updated attributes (`ReturnValues=UPDATED_NEW`). -/
def db_update_item (tbl : Table) (key : String) (sets : List (String × Val)) :
    Table × Item :=
  let base := (db_get_item tbl key).getD [("user_id", Val.str key)]
  let item := sets.foldl (fun it p => it.setAttr p.1 p.2) base
  (item :: tbl.filter (fun it => decide (itemKey it ≠ some (Val.str key))), sets)

/-- Modelled from the spec: the store client's filter condition for the one
filter expression the module uses, `user_id <> :user_id`. Per the store's
comparison semantics a comparison against a missing attribute does not hold,
so an item passes exactly when its `user_id` attribute exists and differs
from the bound value. -/
def db_scan_filter (v : Val) (it : Item) : Bool :=
  match it.getAttr "user_id" with
  | some w => decide (w ≠ v)
  | none => false

/-- Modelled from the spec: full-table scan under the filter above, in store
order (the order of the table contents). -/
def db_scan (tbl : Table) (v : Val) : List Item :=
  tbl.filter (db_scan_filter v)

/-- Modelled from the spec: `aws.dynamodb.utils.replace_data`, the
numeric-type normalization pass applied to outgoing values before every
write: native numeric values are converted to the store's required numeric
representation (`Decimal`), recursively through lists and mappings. -/
def replace_data : Val → Val
  | Val.str s => Val.str s
  | Val.int n => Val.dec n
  | Val.dec n => Val.dec n
  | Val.vnil => Val.vnil
  | Val.vcons v rest => Val.vcons (replace_data v) (replace_data rest)
  | Val.mnil => Val.mnil
  | Val.mcons k v rest => Val.mcons k (replace_data v) (replace_data rest)

/-- `replace_data` applied to a whole outgoing attribute map (the host
helper receives the serialized dictionary and normalizes every value). -/
def replace_item (it : Item) : Item :=
  it.map (fun p => (p.1, replace_data p.2))

/-- A value is normalized when it contains no native numeric value. -/
def Val.normalized : Val → Bool
  | Val.str _ => true
  | Val.int _ => false
  | Val.dec _ => true
  | Val.vnil => true
  | Val.vcons v rest => v.normalized && rest.normalized
  | Val.mnil => true
  | Val.mcons _ v rest => v.normalized && rest.normalized

/-- Exceptions that the module's functions can surface. `store` is any
failure raised by the underlying store client (carrying an opaque message);
`keyError` is the host language's lookup error on a missing dictionary key;
`dynamoDBError` is `aws.exceptions.DynamoDBError`, modelled from the spec as
an exception class carrying a human-readable message. -/
inductive PyErr where
  | store : String → PyErr
  | keyError : String → PyErr
  | dynamoDBError : String → PyErr
deriving Repr, DecidableEq

/-- A call into the store client, parameterized by a failure oracle: when
`fail` is `some e` the client raises `e`, otherwise the call succeeds with
the given result. -/
def storeCall {α : Type} (fail : Option PyErr) (a : α) : Except PyErr α :=
  match fail with
  | some e => Except.error e
  | none => Except.ok a

/-- The source's `try ... except Exception as e: raise e` idiom: any raised
exception is caught and immediately re-raised unchanged. -/
def tryReraise {α : Type} (r : Except PyErr α) : Except PyErr α :=
  match r with
  | Except.error e => Except.error e
  | Except.ok a => Except.ok a

/-- Modelled from the spec: `aws.dynamodb.users.DelayInfoMessages`, the
structured delay payload, opaque to this module beyond a `to_dict`-style
serialization to a nested mapping (spec scenario: `{lines: [...]}`). -/
structure DelayInfoMessages where
  lines : List String
deriving Repr, DecidableEq

/-- Modelled from the spec: serialization of the payload to the nested
mapping sent to the store. -/
def DelayInfoMessages.to_dict (d : DelayInfoMessages) : Val :=
  Val.ofMap [("lines", Val.ofList (d.lines.map Val.str))]

/-- Modelled from the spec: `aws.dynamodb.users.User`, the domain record,
with `user_id` the primary key and the remaining fields optional (absent
fields are `none`); field values are in the store's value representation. -/
structure User where
  user_id : Val
  created_time : Option Val := none
  updated_time : Option Val := none
  delay_info_messages : Option Val := none
deriving Repr, DecidableEq

/-- Modelled from the spec: `User.to_dict`, serializing the record to the
item written to the store, omitting absent fields. -/
def User.to_dict (u : User) : Item :=
  [("user_id", u.user_id)]
    ++ (match u.created_time with
        | some v => [("created_time", v)]
        | none => [])
    ++ (match u.updated_time with
        | some v => [("updated_time", v)]
        | none => [])
    ++ (match u.delay_info_messages with
        | some v => [("delay_info_messages", v)]
        | none => [])

/-- The response dictionary a store call returns to the caller; the module
passes it through unchanged, so only the updated-attribute view returned by
`update_item` is modelled with content. -/
abbrev DynResponse := List (String × Val)

/-- `put_user(user_id)` from the source: captures the current UTC timestamp
once at second resolution (`Decimal(int(datetime.utcnow().timestamp()))`),
builds `User(user_id, timestamp_now, timestamp_now)` with no delay payload,
and writes `utils.replace_data(user.to_dict())` with `put_item`, re-raising
any store failure unchanged. The current time and the store failure oracle
are explicit parameters; the result carries the new table state. -/
def put_user (fail : Option PyErr) (now : Nat) (user_id : String)
    (tbl : Table) : Except PyErr (Table × DynResponse) :=
  let timestamp_now : Val := Val.dec (Int.ofNat now)
  let user : User :=
    { user_id := Val.str user_id
      created_time := some timestamp_now
      updated_time := some timestamp_now }
  match tryReraise (storeCall fail (db_put_item tbl (replace_item user.to_dict))) with
  | Except.error e => Except.error e
  | Except.ok tbl2 => Except.ok (tbl2, [])

/-- `update_user(user_id, delay_info_messages)` from the source: issues
`update_item` with the fixed expression
`set #delay_info_messages=:delay_info_messages, #updated_time=:updated_time`,
expression values `{:delay_info_messages: delay_info_messages.to_dict(),
:updated_time: int(datetime.utcnow().timestamp())}` routed through
`utils.replace_data`, and `ReturnValues=UPDATED_NEW`; any store failure is
re-raised unchanged. -/
def update_user (fail : Option PyErr) (now : Nat) (user_id : String)
    (delay_info_messages : DelayInfoMessages) (tbl : Table) :
    Except PyErr (Table × DynResponse) :=
  let expression_value : List (String × Val) :=
    [("delay_info_messages", delay_info_messages.to_dict),
     ("updated_time", Val.int (Int.ofNat now))]
  match tryReraise (storeCall fail
      (db_update_item tbl user_id (replace_item expression_value))) with
  | Except.error e => Except.error e
  | Except.ok r => Except.ok (r.1, r.2)

/-- `update_railway(delay_info_messages)` from the source: calls
`update_user("railway", delay_info_messages)`. -/
def update_railway (fail : Option PyErr) (now : Nat)
    (delay_info_messages : DelayInfoMessages) (tbl : Table) :
    Except PyErr (Table × DynResponse) :=
  update_user fail now "railway" delay_info_messages tbl

/-- `delete_user(user_id)` from the source: issues `delete_item` by key,
re-raising any store failure unchanged. -/
def delete_user (fail : Option PyErr) (user_id : String) (tbl : Table) :
    Except PyErr (Table × DynResponse) :=
  match tryReraise (storeCall fail (db_delete_item tbl user_id)) with
  | Except.error e => Except.error e
  | Except.ok tbl2 => Except.ok (tbl2, [])

/-- The item-to-record conversion both `get_user` and `scan_exclude_railway`
perform on a returned item:
`User(item[\x27user_id\x27], item.get(\x27created_time\x27),
item.get(\x27updated_time\x27), item.get(\x27delay_info_messages\x27))`.
The `user_id` attribute is accessed unguarded, raising a lookup error when
absent; the other attributes default to absent. -/
def itemToUser (it : Item) : Except PyErr User :=
  match it.getAttr "user_id" with
  | none => Except.error (PyErr.keyError "user_id")
  | some uid =>
      Except.ok
        { user_id := uid
          created_time := it.getAttr "created_time"
          updated_time := it.getAttr "updated_time"
          delay_info_messages := it.getAttr "delay_info_messages" }

/-- `get_user(user_id)` from the source: point lookup with `get_item`,
re-raising any store failure unchanged; returns `none` when no item matches,
otherwise the item converted to a `User`. -/
def get_user (fail : Option PyErr) (user_id : String) (tbl : Table) :
    Except PyErr (Option User) :=
  match tryReraise (storeCall fail (db_get_item tbl user_id)) with
  | Except.error e => Except.error e
  | Except.ok none => Except.ok none
  | Except.ok (some item) =>
      match itemToUser item with
      | Except.error e => Except.error e
      | Except.ok u => Except.ok (some u)

/-- The fixed message of the sentinel-missing error raised by `get_railway`
(the source's Japanese text: the sentinel user record is not registered). -/
def railwayMissingMessage : String := "鉄道用ユーザ情報が登録されていません。"

/-- `get_railway()` from the source: calls `get_user("railway")` and raises
`DynamoDBError` with the fixed message when the result is absent. -/
def get_railway (fail : Option PyErr) (tbl : Table) : Except PyErr User :=
  match get_user fail "railway" tbl with
  | Except.error e => Except.error e
  | Except.ok none => Except.error (PyErr.dynamoDBError railwayMissingMessage)
  | Except.ok (some u) => Except.ok u

/-- `scan_exclude_railway()` from the source: scans the table with filter
`user_id <> :user_id` bound to `"railway"`, re-raising any store failure
unchanged, and converts every returned item to a `User` (a lookup error in
the conversion aborts the whole call, as in the list comprehension). -/
def scan_exclude_railway (fail : Option PyErr) (tbl : Table) :
    Except PyErr (List User) :=
  match tryReraise (storeCall fail (db_scan tbl (Val.str "railway"))) with
  | Except.error e => Except.error e
  | Except.ok items => items.mapM itemToUser

/-- The record `put_user` builds before serialization:
`User(user_id, timestamp_now, timestamp_now)`. -/
def freshUser (now : Nat) (user_id : String) : User :=
  { user_id := Val.str user_id
    created_time := some (Val.dec (Int.ofNat now))
    updated_time := some (Val.dec (Int.ofNat now)) }

/-- The expression attribute values `update_user` sends, before the
normalization pass: the serialized payload and the native-integer
timestamp. -/
def updateExprValues (now : Nat) (d : DelayInfoMessages) :
    List (String × Val) :=
  [("delay_info_messages", d.to_dict),
   ("updated_time", Val.int (Int.ofNat now))]

/-- The total item-to-record conversion, defined on items carrying a
`user_id` attribute: the `User` whose optional fields are the item's
attributes, absent attributes mapping to `none`. -/
def userOf (it : Item) : User :=
  { user_id := (Item.getAttr it "user_id").getD (Val.str "")
    created_time := Item.getAttr it "created_time"
    updated_time := Item.getAttr it "updated_time"
    delay_info_messages := Item.getAttr it "delay_info_messages" }

section Lemmas

lemma db_get_item_some_key {tbl : Table} {key : String} {it : Item}
    (h : db_get_item tbl key = some it) : itemKey it = some (Val.str key) := by
  have := List.find?_some h
  simpa using this

lemma itemToUser_eq_userOf {it : Item} {v : Val}
    (h : Item.getAttr it "user_id" = some v) :
    itemToUser it = Except.ok (userOf it) := by
  simp [itemToUser, userOf, h]

lemma mapM_itemToUser_eq (items : List Item)
    (h : ∀ it ∈ items, (Item.getAttr it "user_id").isSome) :
    items.mapM itemToUser = Except.ok (items.map userOf) := by
  induction items with
  | nil => rfl
  | cons a l ih =>
    obtain ⟨v, hv⟩ := Option.isSome_iff_exists.mp (h a (by simp))
    have hl : ∀ it ∈ l, (Item.getAttr it "user_id").isSome := by
      intro it hit
      exact h it (by simp [hit])
    rw [List.mapM_cons, itemToUser_eq_userOf hv, ih hl]
    rfl

/-- The item `put_user` writes, fully evaluated. -/
def putItem (now : Nat) (uid : String) : Item :=
  [("user_id", Val.str uid),
   ("created_time", Val.dec (Int.ofNat now)),
   ("updated_time", Val.dec (Int.ofNat now))]

/-- The item present after `put_user` at `now1` followed by `update_user`
at `now2`, fully evaluated. -/
def updatedItem (now1 now2 : Nat) (uid : String) (P : DelayInfoMessages) :
    Item :=
  [("updated_time", Val.dec (Int.ofNat now2)),
   ("delay_info_messages", replace_data P.to_dict),
   ("user_id", Val.str uid),
   ("created_time", Val.dec (Int.ofNat now1))]

lemma replace_data_ofList_str (l : List String) :
    replace_data (Val.ofList (l.map Val.str)) = Val.ofList (l.map Val.str) := by
  induction l with
  | nil => rfl
  | cons a t ih => simp [Val.ofList, replace_data, ih]

lemma replace_data_to_dict (d : DelayInfoMessages) :
    replace_data d.to_dict = d.to_dict := by
  simp [DelayInfoMessages.to_dict, Val.ofMap, replace_data,
    replace_data_ofList_str]

lemma ofList_str_inj {l1 l2 : List String}
    (h : Val.ofList (l1.map Val.str) = Val.ofList (l2.map Val.str)) :
    l1 = l2 := by
  induction l1 generalizing l2 with
  | nil =>
    cases l2 with
    | nil => rfl
    | cons b t2 => simp [Val.ofList] at h
  | cons a t ih =>
    cases l2 with
    | nil => simp [Val.ofList] at h
    | cons b t2 =>
      simp [Val.ofList] at h
      simp [h.1, ih h.2]

lemma to_dict_inj {d1 d2 : DelayInfoMessages}
    (h : d1.to_dict = d2.to_dict) : d1 = d2 := by
  cases d1
  cases d2
  simp [DelayInfoMessages.to_dict, Val.ofMap] at h
  simp [ofList_str_inj h]

lemma replace_data_normalized (v : Val) :
    (replace_data v).normalized = true := by
  induction v <;> simp [replace_data, Val.normalized, *]

end Lemmas

/-- C1: for every `user_id`, `put_user(user_id)` followed by
`get_user(user_id)` returns a record whose `created_time` equals its
`updated_time`, both being the current UTC timestamp captured once at
second resolution, and whose `delay_info_messages` is absent. -/
theorem claim_C1 (now : Nat) (uid : String) (tbl : Table) :
    ∃ tbl2 u,
      put_user none now uid tbl = Except.ok (tbl2, []) ∧
      get_user none uid tbl2 = Except.ok (some u) ∧
      u.created_time = u.updated_time ∧
      u.created_time = some (Val.dec (Int.ofNat now)) ∧
      u.delay_info_messages = none := by
  refine ⟨db_put_item tbl (replace_item (freshUser now uid).to_dict),
          userOf (replace_item (freshUser now uid).to_dict), rfl, ?_, ?_, ?_, ?_⟩
  · simp [get_user, storeCall, tryReraise, db_get_item, db_put_item, itemToUser,
      userOf, replace_item, freshUser, User.to_dict, replace_data, Item.getAttr,
      itemKey, List.find?]
  · simp [userOf, replace_item, freshUser, User.to_dict, replace_data,
      Item.getAttr, List.find?]
  · simp [userOf, replace_item, freshUser, User.to_dict, replace_data,
      Item.getAttr, List.find?]
  · simp [userOf, replace_item, freshUser, User.to_dict, replace_data,
      Item.getAttr, List.find?]

/-- C2: for every `user_id` and payload `P`, `put_user(user_id)` then
`update_user(user_id, P)` then `get_user(user_id)` returns a record whose
`delay_info_messages` equals `P` (its serialization, with the serialization
injective), whose `updated_time` is the update's timestamp and at least the
creation timestamp, whose `created_time` is unchanged from creation, and
whose `user_id` is preserved: only `delay_info_messages` and `updated_time`
are modified. -/
theorem claim_C2 (now1 now2 : Nat) (hle : now1 ≤ now2) (uid : String)
    (P : DelayInfoMessages) (tbl : Table) :
    ∃ tbl2 tbl3 r u,
      put_user none now1 uid tbl = Except.ok (tbl2, []) ∧
      update_user none now2 uid P tbl2 = Except.ok (tbl3, r) ∧
      get_user none uid tbl3 = Except.ok (some u) ∧
      u.delay_info_messages = some P.to_dict ∧
      (∀ Q : DelayInfoMessages, Q.to_dict = P.to_dict → Q = P) ∧
      u.created_time = some (Val.dec (Int.ofNat now1)) ∧
      u.updated_time = some (Val.dec (Int.ofNat now2)) ∧
      Int.ofNat now1 ≤ Int.ofNat now2 ∧
      u.user_id = Val.str uid := by
  have h1 : itemKey (putItem now1 uid) = some (Val.str uid) := by
    simp [putItem, itemKey, Item.getAttr, List.find?]
  have hput : put_user none now1 uid tbl =
      Except.ok (db_put_item tbl (putItem now1 uid), []) := rfl
  have hget1 : db_get_item (db_put_item tbl (putItem now1 uid)) uid =
      some (putItem now1 uid) := by
    simp [db_get_item, db_put_item, List.find?, h1]
  have hupd : update_user none now2 uid P (db_put_item tbl (putItem now1 uid)) =
      Except.ok (updatedItem now1 now2 uid P ::
          (db_put_item tbl (putItem now1 uid)).filter
            (fun it => decide (itemKey it ≠ some (Val.str uid))),
        [("delay_info_messages", replace_data P.to_dict),
         ("updated_time", Val.dec (Int.ofNat now2))]) := by
    simp [update_user, storeCall, tryReraise, db_update_item, hget1,
      replace_item, updateExprValues, updatedItem, Item.setAttr, List.filter,
      List.foldl, replace_data]
  have h2 : itemKey (updatedItem now1 now2 uid P) = some (Val.str uid) := by
    simp [updatedItem, itemKey, Item.getAttr, List.find?]
  have hget2 : get_user none uid (updatedItem now1 now2 uid P ::
      (db_put_item tbl (putItem now1 uid)).filter
        (fun it => decide (itemKey it ≠ some (Val.str uid)))) =
      Except.ok (some
        { user_id := Val.str uid
          created_time := some (Val.dec (Int.ofNat now1))
          updated_time := some (Val.dec (Int.ofNat now2))
          delay_info_messages := some (replace_data P.to_dict) }) := by
    simp [get_user, storeCall, tryReraise, db_get_item, List.find?,
      itemToUser, updatedItem, Item.getAttr, itemKey]
  refine ⟨db_put_item tbl (putItem now1 uid), _, _, _, hput, hupd, hget2,
    ?_, ?_, rfl, rfl, ?_, rfl⟩
  · simp [replace_data_to_dict]
  · intro Q hQ
    exact to_dict_inj hQ
  · exact Int.ofNat_le.mpr hle

/-- C2 witness: the chain at a concrete input. -/
theorem claim_C2_witness :
    ∃ tbl2 tbl3 r u,
      put_user none 100 "u1" [] = Except.ok (tbl2, []) ∧
      update_user none 105 "u1" ⟨["A line delayed"]⟩ tbl2 =
        Except.ok (tbl3, r) ∧
      get_user none "u1" tbl3 = Except.ok (some u) ∧
      u.delay_info_messages =
        some (DelayInfoMessages.to_dict ⟨["A line delayed"]⟩) ∧
      (∀ Q : DelayInfoMessages,
        Q.to_dict = DelayInfoMessages.to_dict ⟨["A line delayed"]⟩ →
          Q = ⟨["A line delayed"]⟩) ∧
      u.created_time = some (Val.dec (Int.ofNat 100)) ∧
      u.updated_time = some (Val.dec (Int.ofNat 105)) ∧
      Int.ofNat 100 ≤ Int.ofNat 105 ∧
      u.user_id = Val.str "u1" :=
  claim_C2 100 105 (by decide) "u1" ⟨["A line delayed"]⟩ []

/-- C5: for every payload and table state (and failure behavior of the
store), `update_railway(P)` is extensionally equal to
`update_user("railway", P)`: the same store call, the same result, the same
error. -/
theorem claim_C5 (fail : Option PyErr) (now : Nat) (P : DelayInfoMessages)
    (tbl : Table) :
    update_railway fail now P tbl = update_user fail now "railway" P tbl := rfl

/-- C3: `get_railway()` raises `DynamoDBError` with its fixed message
exactly when no item with key `"railway"` exists; when such an item exists
it returns that item's record and raises no error. -/
theorem claim_C3 (tbl : Table) :
    (db_get_item tbl "railway" = none →
      get_railway none tbl =
        Except.error (PyErr.dynamoDBError railwayMissingMessage)) ∧
    (∀ it, db_get_item tbl "railway" = some it →
      ∃ u, itemToUser it = Except.ok u ∧ get_railway none tbl = Except.ok u) := by
  constructor
  · intro h
    simp [get_railway, get_user, storeCall, tryReraise, h]
  · intro it h
    have hv : Item.getAttr it "user_id" = some (Val.str "railway") :=
      db_get_item_some_key h
    refine ⟨userOf it, itemToUser_eq_userOf hv, ?_⟩
    simp [get_railway, get_user, storeCall, tryReraise, h,
      itemToUser_eq_userOf hv]

/-- C3 witness: on the empty table the sentinel lookup fails with the fixed
message. -/
theorem claim_C3_witness :
    get_railway none ([] : Table) =
      Except.error (PyErr.dynamoDBError railwayMissingMessage) :=
  (claim_C3 []).1 rfl

/-- C4: for every table state, `scan_exclude_railway()` succeeds and its
result is exactly the filtered table contents mapped to records, one entry
per passing item in store order; no returned record carries
`user_id == "railway"`, and every item passing the filter appears. -/
theorem claim_C4 (tbl : Table) :
    ∃ us, scan_exclude_railway none tbl = Except.ok us ∧
      us = (db_scan tbl (Val.str "railway")).map userOf ∧
      (∀ u ∈ us, u.user_id ≠ Val.str "railway") ∧
      (∀ it ∈ tbl, db_scan_filter (Val.str "railway") it = true →
        userOf it ∈ us) := by
  have hmem : ∀ it ∈ db_scan tbl (Val.str "railway"),
      ∃ w, Item.getAttr it "user_id" = some w ∧ w ≠ Val.str "railway" := by
    intro it hit
    have hf : db_scan_filter (Val.str "railway") it = true :=
      (List.mem_filter.mp hit).2
    unfold db_scan_filter at hf
    cases hat : Item.getAttr it "user_id" with
    | none => rw [hat] at hf; simp at hf
    | some w =>
      rw [hat] at hf
      simp at hf
      exact ⟨w, rfl, hf⟩
  refine ⟨(db_scan tbl (Val.str "railway")).map userOf, ?_, rfl, ?_, ?_⟩
  · have hm := mapM_itemToUser_eq (db_scan tbl (Val.str "railway"))
      (fun it hit => by
        obtain ⟨w, hw, _⟩ := hmem it hit
        simp [hw])
    have hs : scan_exclude_railway none tbl =
        (db_scan tbl (Val.str "railway")).mapM itemToUser := rfl
    rw [hs, hm]
  · intro u hu
    obtain ⟨it, hit, rfl⟩ := List.mem_map.mp hu
    obtain ⟨w, hw, hne⟩ := hmem it hit
    simp [userOf, hw]
    exact hne
  · intro it hit hf
    exact List.mem_map_of_mem userOf (List.mem_filter.mpr ⟨hit, hf⟩)

/-- C4 witness: a table holding the sentinel and one user scans to exactly
that one user. -/
theorem claim_C4_witness :
    ∃ us,
      scan_exclude_railway none
        [[("user_id", Val.str "railway")], [("user_id", Val.str "u1")]] =
        Except.ok us ∧
      us = (db_scan [[("user_id", Val.str "railway")],
              [("user_id", Val.str "u1")]] (Val.str "railway")).map userOf ∧
      (∀ u ∈ us, u.user_id ≠ Val.str "railway") ∧
      (∀ it ∈ [[("user_id", Val.str "railway")], [("user_id", Val.str "u1")]],
        db_scan_filter (Val.str "railway") it = true → userOf it ∈ us) :=
  claim_C4 [[("user_id", Val.str "railway")], [("user_id", Val.str "u1")]]

/-- C6: `get_user(user_id)` returns absent (not an error) whenever no item
matches the key; in particular `delete_user(user_id)` followed by
`get_user(user_id)` returns absent, for any prior table state. -/
theorem claim_C6 (uid : String) (tbl : Table) :
    (db_get_item tbl uid = none → get_user none uid tbl = Except.ok none) ∧
    ∃ tbl2, delete_user none uid tbl = Except.ok (tbl2, []) ∧
      get_user none uid tbl2 = Except.ok none := by
  constructor
  · intro h
    simp [get_user, storeCall, tryReraise, h]
  · refine ⟨db_delete_item tbl uid, rfl, ?_⟩
    have hnone : db_get_item (db_delete_item tbl uid) uid = none := by
      apply List.find?_eq_none.mpr
      intro it hit
      have h := (List.mem_filter.mp hit).2
      simp at h ⊢
      exact h
    simp [get_user, storeCall, tryReraise, hnone]

/-- C6 witness: deleting `"u1"` from a table holding it, then reading,
returns absent; reading from the empty table also returns absent. -/
theorem claim_C6_witness :
    get_user none "u1" ([] : Table) = Except.ok none :=
  (claim_C6 "u1" []).1 rfl

/-- C7: for every operation and every failure raised by the underlying
store client, the failure is propagated to the caller verbatim (the same
exception value, no wrapping); and the catch-and-rethrow idiom is a
behavioral no-op. -/
theorem claim_C7 (e : PyErr) (now : Nat) (uid : String)
    (P : DelayInfoMessages) (tbl : Table) :
    put_user (some e) now uid tbl = Except.error e ∧
    update_user (some e) now uid P tbl = Except.error e ∧
    delete_user (some e) uid tbl = Except.error e ∧
    get_user (some e) uid tbl = Except.error e ∧
    scan_exclude_railway (some e) tbl = Except.error e ∧
    ∀ (α : Type) (r : Except PyErr α), tryReraise r = r := by
  refine ⟨rfl, rfl, rfl, rfl, rfl, ?_⟩
  intro α r
  cases r <;> rfl

/-- C8: the numeric-type normalization pass is applied to all outgoing
values before every write: the item `put_user` writes and the expression
attribute values `update_user` sends are routed through `replace_data`, and
every value so written is normalized; read operations return the stored
values unchanged (no normalization pass). -/
theorem claim_C8 :
    (∀ v : Val, (replace_data v).normalized = true) ∧
    (∀ (now : Nat) (uid : String) (tbl : Table),
      put_user none now uid tbl =
        Except.ok (db_put_item tbl
          (replace_item (freshUser now uid).to_dict), [])) ∧
    (∀ (now : Nat) (uid : String),
      ∀ p ∈ replace_item (freshUser now uid).to_dict, p.2.normalized = true) ∧
    (∀ (now : Nat) (uid : String) (P : DelayInfoMessages) (tbl : Table),
      update_user none now uid P tbl =
        Except.ok
          ((db_update_item tbl uid (replace_item (updateExprValues now P))).1,
           (db_update_item tbl uid (replace_item (updateExprValues now P))).2)) ∧
    (∀ (now : Nat) (P : DelayInfoMessages),
      ∀ p ∈ replace_item (updateExprValues now P), p.2.normalized = true) ∧
    (∀ (uid : String) (tbl : Table) (it : Item),
      db_get_item tbl uid = some it →
        get_user none uid tbl = Except.ok (some (userOf it))) := by
  refine ⟨replace_data_normalized, fun now uid tbl => rfl, ?_,
    fun now uid P tbl => rfl, ?_, ?_⟩
  · intro now uid p hp
    simp [replace_item, freshUser, User.to_dict, replace_data] at hp
    rcases hp with h | h | h <;> simp [h, Val.normalized]
  · intro now P p hp
    simp [replace_item, updateExprValues, replace_data] at hp
    rcases hp with h | h <;> simp [h, Val.normalized, replace_data_normalized]
  · intro uid tbl it h
    have hv : Item.getAttr it "user_id" = some (Val.str uid) :=
      db_get_item_some_key h
    simp [get_user, storeCall, tryReraise, h, itemToUser_eq_userOf hv]

/-- C8 witness: a native integer is normalized by the pass, and a stored
item is read back unchanged. -/
theorem claim_C8_witness :
    (replace_data (Val.int 3)).normalized = true ∧
    get_user none "u1" [[("user_id", Val.str "u1"), ("x", Val.int 7)]] =
      Except.ok (some (userOf [("user_id", Val.str "u1"), ("x", Val.int 7)])) :=
  ⟨claim_C8.1 (Val.int 3),
   claim_C8.2.2.2.2.2 "u1" [[("user_id", Val.str "u1"), ("x", Val.int 7)]]
     [("user_id", Val.str "u1"), ("x", Val.int 7)] (by decide)⟩

/-- C9: `put_user(user_id)` unconditionally overwrites: for every prior
table state (including one already holding a record for `user_id` with a
delay payload and an older creation time), the put succeeds with no
existence check, the subsequent read returns the fresh record, and every
item keyed `user_id` in the new table is the fresh item. -/
theorem claim_C9 (now : Nat) (uid : String) (tbl : Table) :
    ∃ tbl2 u,
      put_user none now uid tbl = Except.ok (tbl2, []) ∧
      get_user none uid tbl2 = Except.ok (some u) ∧
      u = { user_id := Val.str uid
            created_time := some (Val.dec (Int.ofNat now))
            updated_time := some (Val.dec (Int.ofNat now))
            delay_info_messages := none } ∧
      ∀ it ∈ tbl2, itemKey it = some (Val.str uid) → it = putItem now uid := by
  have h1 : itemKey (putItem now uid) = some (Val.str uid) := by
    simp [putItem, itemKey, Item.getAttr, List.find?]
  refine ⟨db_put_item tbl (putItem now uid), _, rfl, ?_, rfl, ?_⟩
  · simp [get_user, storeCall, tryReraise, db_get_item, db_put_item,
      List.find?, itemToUser, putItem, Item.getAttr, itemKey]
  · intro it hit hk
    rcases List.mem_cons.mp hit with h | h
    · exact h
    · have hne := (List.mem_filter.mp h).2
      rw [h1] at hne
      simp at hne
      exact absurd hk hne

/-- C9 witness: the overwrite chain at a concrete input. -/
theorem claim_C9_witness :
    ∃ tbl2 u,
      put_user none 9 "u1" [] = Except.ok (tbl2, []) ∧
      get_user none "u1" tbl2 = Except.ok (some u) ∧
      u = { user_id := Val.str "u1"
            created_time := some (Val.dec (Int.ofNat 9))
            updated_time := some (Val.dec (Int.ofNat 9))
            delay_info_messages := none } ∧
      ∀ it ∈ tbl2, itemKey it = some (Val.str "u1") → it = putItem 9 "u1" :=
  claim_C9 9 "u1" []

/-- C10: the item-to-record conversion performed by `get_user` and
`scan_exclude_railway` never raises on missing optional attributes — an
item carrying a `user_id` attribute converts to a record whose optional
fields are exactly the item's (possibly absent) attributes — and an item
without `user_id` is the sole lookup-error branch; consequently
`scan_exclude_railway` and `get_user` always succeed when the store call
does. -/
theorem claim_C10 :
    (∀ (it : Item) (v : Val), Item.getAttr it "user_id" = some v →
      itemToUser it = Except.ok (userOf it) ∧
      (userOf it).created_time = Item.getAttr it "created_time" ∧
      (userOf it).updated_time = Item.getAttr it "updated_time" ∧
      (userOf it).delay_info_messages =
        Item.getAttr it "delay_info_messages") ∧
    (∀ it : Item, Item.getAttr it "user_id" = none →
      itemToUser it = Except.error (PyErr.keyError "user_id")) ∧
    (∀ tbl : Table, ∃ us, scan_exclude_railway none tbl = Except.ok us) ∧
    (∀ (uid : String) (tbl : Table),
      ∃ r, get_user none uid tbl = Except.ok r) := by
  refine ⟨?_, ?_, ?_, ?_⟩
  · intro it v hv
    exact ⟨itemToUser_eq_userOf hv, rfl, rfl, rfl⟩
  · intro it h
    simp [itemToUser, h]
  · intro tbl
    refine ⟨(db_scan tbl (Val.str "railway")).map userOf, ?_⟩
    have hm := mapM_itemToUser_eq (db_scan tbl (Val.str "railway"))
      (fun it hit => by
        have hf : db_scan_filter (Val.str "railway") it = true :=
          (List.mem_filter.mp hit).2
        unfold db_scan_filter at hf
        cases hat : Item.getAttr it "user_id" with
        | none => rw [hat] at hf; simp at hf
        | some w => simp [hat])
    have hs : scan_exclude_railway none tbl =
        (db_scan tbl (Val.str "railway")).mapM itemToUser := rfl
    rw [hs, hm]
  · intro uid tbl
    cases hd : db_get_item tbl uid with
    | none => exact ⟨none, by simp [get_user, storeCall, tryReraise, hd]⟩
    | some it =>
      have hv : Item.getAttr it "user_id" = some (Val.str uid) :=
        db_get_item_some_key hd
      exact ⟨some (userOf it),
        by simp [get_user, storeCall, tryReraise, hd, itemToUser_eq_userOf hv]⟩

/-- C10 witness: a sparse item with only `user_id` converts to a record
with all optional fields absent, and an item without `user_id` is the
lookup-error branch. -/
theorem claim_C10_witness :
    (itemToUser [("user_id", Val.str "u")] =
        Except.ok (userOf [("user_id", Val.str "u")]) ∧
      (userOf [("user_id", Val.str "u")]).created_time =
        Item.getAttr [("user_id", Val.str "u")] "created_time" ∧
      (userOf [("user_id", Val.str "u")]).updated_time =
        Item.getAttr [("user_id", Val.str "u")] "updated_time" ∧
      (userOf [("user_id", Val.str "u")]).delay_info_messages =
        Item.getAttr [("user_id", Val.str "u")] "delay_info_messages") ∧
    itemToUser [("foo", Val.str "x")] =
      Except.error (PyErr.keyError "user_id") :=
  ⟨claim_C10.1 [("user_id", Val.str "u")] (Val.str "u") (by decide),
   claim_C10.2.1 [("foo", Val.str "x")] (by decide)⟩

/-- C1 witness: the create-then-get chain at a concrete input. -/
theorem claim_C1_witness :
    ∃ tbl2 u,
      put_user none 3 "u1" [] = Except.ok (tbl2, []) ∧
      get_user none "u1" tbl2 = Except.ok (some u) ∧
      u.created_time = u.updated_time ∧
      u.created_time = some (Val.dec (Int.ofNat 3)) ∧
      u.delay_info_messages = none :=
  claim_C1 3 "u1" []

/-- C5 witness: the alias at a concrete input. -/
theorem claim_C5_witness :
    update_railway none 0 ⟨[]⟩ ([] : Table) =
      update_user none 0 "railway" ⟨[]⟩ ([] : Table) :=
  claim_C5 none 0 ⟨[]⟩ []

/-- C7 witness: a concrete store failure propagates verbatim through every
operation, and the re-raise idiom is the identity on a concrete result. -/
theorem claim_C7_witness :
    put_user (some (PyErr.store "boom")) 0 "u1" ([] : Table) =
        Except.error (PyErr.store "boom") ∧
    update_user (some (PyErr.store "boom")) 0 "u1" ⟨[]⟩ ([] : Table) =
        Except.error (PyErr.store "boom") ∧
    delete_user (some (PyErr.store "boom")) "u1" ([] : Table) =
        Except.error (PyErr.store "boom") ∧
    get_user (some (PyErr.store "boom")) "u1" ([] : Table) =
        Except.error (PyErr.store "boom") ∧
    scan_exclude_railway (some (PyErr.store "boom")) ([] : Table) =
        Except.error (PyErr.store "boom") ∧
    ∀ (α : Type) (r : Except PyErr α), tryReraise r = r :=
  claim_C7 (PyErr.store "boom") 0 "u1" ⟨[]⟩ []

end UsersTable
